import Mathlib

/-!
Verification of the signal-evaluation and position-lifecycle engine of an
automated single-instrument futures trading bot (Python sources: risk.py,
indicators.py, strategy.py, bot.py, config.py).

The embedding models Python/pandas float arithmetic with an explicit value
type RF carrying NaN and the two infinities over exact rationals (no
floating-point rounding; rounding is irrelevant to every property proved
here, which only depends on definedness, signs, orderings and branch
structure).  Pandas series become lists of RF; NaN-propagation, skipna
row maxima, rolling windows with full-window minimum periods, and
Python comparison semantics (any comparison with NaN is False, NaN and
the infinities are truthy, 0.0 is falsy) are modelled explicitly.
Fallible code (Python float division by zero raises ZeroDivisionError)
returns Except.
-/

/-- Model of a pandas/Python float value: NaN, plus or minus infinity, or a
finite value represented exactly as a rational. -/
inductive RF where
  | nan : RF
  | inf : RF
  | ninf : RF
  | fin : ℚ → RF
deriving DecidableEq, Repr

namespace RF

/-- True exactly on NaN. -/
def isNan : RF → Bool
  | nan => true
  | _ => false

/-- IEEE negation. -/
def neg : RF → RF
  | nan => nan
  | inf => ninf
  | ninf => inf
  | fin q => fin (-q)

/-- IEEE addition: NaN propagates, inf + (-inf) is NaN. -/
def add : RF → RF → RF
  | nan, _ => nan
  | _, nan => nan
  | inf, ninf => nan
  | ninf, inf => nan
  | inf, _ => inf
  | _, inf => inf
  | ninf, _ => ninf
  | _, ninf => ninf
  | fin a, fin b => fin (a + b)

/-- IEEE subtraction. -/
def sub (x y : RF) : RF := add x (neg y)

/-- IEEE multiplication: NaN propagates, inf times zero is NaN. -/
def mul : RF → RF → RF
  | nan, _ => nan
  | _, nan => nan
  | inf, inf => inf
  | inf, ninf => ninf
  | ninf, inf => ninf
  | ninf, ninf => inf
  | inf, fin b => if 0 < b then inf else if b < 0 then ninf else nan
  | ninf, fin b => if 0 < b then ninf else if b < 0 then inf else nan
  | fin a, inf => if 0 < a then inf else if a < 0 then ninf else nan
  | fin a, ninf => if 0 < a then ninf else if a < 0 then inf else nan
  | fin a, fin b => fin (a * b)

/-- IEEE division (numpy semantics, as used by pandas): finite / 0 is a
signed infinity, 0 / 0 is NaN, finite / inf is 0, inf / inf is NaN. -/
def div : RF → RF → RF
  | nan, _ => nan
  | _, nan => nan
  | inf, inf => nan
  | inf, ninf => nan
  | ninf, inf => nan
  | ninf, ninf => nan
  | inf, fin b => if 0 ≤ b then inf else ninf
  | ninf, fin b => if 0 ≤ b then ninf else inf
  | fin _, inf => fin 0
  | fin _, ninf => fin 0
  | fin a, fin b =>
      if b = 0 then (if 0 < a then inf else if a < 0 then ninf else nan)
      else fin (a / b)

/-- IEEE absolute value. -/
def abs : RF → RF
  | nan => nan
  | inf => inf
  | ninf => inf
  | fin q => fin |q|

/-- Python float comparison x < y: any comparison involving NaN is False. -/
def ltB : RF → RF → Bool
  | nan, _ => false
  | _, nan => false
  | inf, _ => false
  | ninf, ninf => false
  | ninf, _ => true
  | fin _, inf => true
  | fin _, ninf => false
  | fin a, fin b => if a < b then true else false

/-- Python float comparison x <= y: any comparison involving NaN is False. -/
def leB : RF → RF → Bool
  | nan, _ => false
  | _, nan => false
  | ninf, _ => true
  | inf, inf => true
  | inf, _ => false
  | fin _, inf => true
  | fin _, ninf => false
  | fin a, fin b => if a ≤ b then true else false

/-- Python float comparison x > y. -/
def gtB (x y : RF) : Bool := ltB y x

/-- Python float comparison x >= y. -/
def geB (x y : RF) : Bool := leB y x

/-- Python float equality: NaN equals nothing, including itself. -/
def eqB : RF → RF → Bool
  | nan, _ => false
  | _, nan => false
  | inf, inf => true
  | ninf, ninf => true
  | fin a, fin b => if a = b then true else false
  | _, _ => false

/-- Python truthiness of a float: 0.0 is falsy; NaN and the infinities are
truthy. -/
def pyTruthy : RF → Bool
  | nan => true
  | inf => true
  | ninf => true
  | fin q => if q = 0 then false else true

/-- Pandas clip(lower=0): NaN stays NaN, values below 0 become 0. -/
def clipLower0 : RF → RF
  | nan => nan
  | inf => inf
  | ninf => fin 0
  | fin q => fin (max q 0)

/-- Pandas clip(upper=0): NaN stays NaN, values above 0 become 0. -/
def clipUpper0 : RF → RF
  | nan => nan
  | inf => fin 0
  | ninf => ninf
  | fin q => fin (min q 0)

/-- Binary maximum skipping NaN (pandas skipna semantics): NaN acts as
missing, the maximum of two missing values is missing. -/
def max2 (x y : RF) : RF :=
  if isNan x then y else if isNan y then x else if leB x y then y else x

end RF

/-- Rowwise maximum of three values with pandas skipna=True semantics, as in
pd.concat([tr1, tr2, tr3], axis=1).max(axis=1). -/
def rowMax3 (a b c : RF) : RF := RF.max2 (RF.max2 a b) c

/-- Sum of a list of float values (left-to-right IEEE addition). -/
def sumRF (ws : List RF) : RF := ws.foldr RF.add (RF.fin 0)

/-- Pandas Series.shift(): same length, NaN in front, last element dropped. -/
def shiftRF : List RF → List RF
  | [] => []
  | x :: xs => RF.nan :: (x :: xs).dropLast

/-- Pandas Series.diff(): elementwise x - x.shift(). -/
def diffRF (xs : List RF) : List RF := List.zipWith RF.sub xs (shiftRF xs)

/-- The window of width p of a series ending at index i (pandas rolling
window), as a list slice. -/
def windowAt (p i : Nat) (xs : List RF) : List RF := (xs.drop (i + 1 - p)).take p

/-- Mean of one full rolling window: NaN when any member is NaN
(pandas min_periods = window), otherwise the sum divided by the period. -/
def winMean (p : Nat) (ws : List RF) : RF :=
  if ws.any RF.isNan then RF.nan else RF.div (sumRF ws) (RF.fin p)

/-- Pandas Series.rolling(p).mean(): same length as the input, NaN for the
first p - 1 positions, thereafter the mean of the width-p window. -/
def rollingMean (p : Nat) (xs : List RF) : List RF :=
  (List.range xs.length).map (fun i =>
    if i + 1 < p then RF.nan else winMean p (windowAt p i xs))

/-- Elementwise zip of three lists, stopping at the shortest. -/
def zipWith3 (f : RF → RF → RF → RF) : List RF → List RF → List RF → List RF
  | a :: as, b :: bs, c :: cs => f a b c :: zipWith3 f as bs cs
  | _, _, _ => []

-- ======================
--  config.py defaults
-- ======================

/-- config.py POSITION_SIZE_PCT default 0.10, imported by risk.py under the
name TRADE_BALANCE_FRACTION: fraction of the wallet used per trade. -/
def TRADE_BALANCE_FRACTION : ℚ := 1/10

/-- config.py MAX_DAILY_DRAWDOWN_PCT default 0.10, imported by risk.py under
the name DAILY_DRAWDOWN_LIMIT: daily drawdown threshold. -/
def DAILY_DRAWDOWN_LIMIT : ℚ := 1/10

/-- config.py ADX_THRESHOLD_TREND default 20. -/
def ADX_THRESHOLD_TREND : ℚ := 20

/-- config.py RSI_OVERSOLD default 30. -/
def RSI_OVERSOLD : ℚ := 30

/-- config.py RSI_OVERBOUGHT default 70. -/
def RSI_OVERBOUGHT : ℚ := 70

/-- config.py MIN_VOLUME_FACTOR_TREND default 0.8. -/
def MIN_VOLUME_FACTOR_TREND : ℚ := 4/5

/-- config.py MIN_VOLUME_FACTOR_RANGE default 0.5. -/
def MIN_VOLUME_FACTOR_RANGE : ℚ := 1/2

/-- config.py ATR_PERIOD default 14. -/
def ATR_PERIOD : Nat := 14

/-- config.py ATR_SL_MULTIPLIER default 1.5. -/
def ATR_SL_MULTIPLIER : ℚ := 3/2

/-- config.py ATR_TP_MULTIPLIER default 3.0. -/
def ATR_TP_MULTIPLIER : ℚ := 3

-- ======================
--  risk.py
-- ======================

/-- risk.py RiskState: daily equity baseline plus its UTC calendar date. -/
structure RiskState where
  day_start_equity : ℚ
  day_start_date : String
deriving DecidableEq, Repr

/-- risk.py init_risk_state: seed the baseline from current equity; the
impure clock read get_utc_date_str() is passed in as the today argument. -/
def init_risk_state (today : String) (current_equity : ℚ) : RiskState :=
  { day_start_equity := current_equity, day_start_date := today }

/-- risk.py maybe_reset_day: roll the daily baseline when the UTC calendar
date (read impurely in the source, passed here as today) differs from the
stored one; otherwise return the state unchanged. -/
def maybe_reset_day (today : String) (state : RiskState) (current_equity : ℚ) :
    RiskState :=
  if today ≠ state.day_start_date then
    { day_start_equity := current_equity, day_start_date := today }
  else state

/-- risk.py can_open_new_trade: loss_pct = (day_start_equity - equity) /
day_start_equity, allowed while below DAILY_DRAWDOWN_LIMIT.  The source has
no zero guard; Python float division by zero raises ZeroDivisionError,
modelled as Except.error. -/
def can_open_new_trade (state : RiskState) (current_equity : ℚ) :
    Except String Bool :=
  if state.day_start_equity = 0 then Except.error "ZeroDivisionError"
  else
    Except.ok
      (decide ((state.day_start_equity - current_equity) /
        state.day_start_equity < DAILY_DRAWDOWN_LIMIT))

/-- Round to the nearest integer with ties to even, which is how Python
fixed-point string formatting rounds the third decimal in
float(f-format qty .3f). -/
def pyRoundHalfEven (x : ℚ) : ℤ :=
  let f := ⌊x⌋
  let r := x - (f : ℚ)
  if r < 1/2 then f
  else if 1/2 < r then f + 1
  else if f % 2 = 0 then f else f + 1

/-- Rounding a quantity to three decimal places via Python float formatting
(nearest, ties to even), as float(f-format qty .3f) does in risk.py. -/
def roundTo3 (q : ℚ) : ℚ := (pyRoundHalfEven (q * 1000) : ℚ) / 1000

/-- risk.py compute_position_size: spend TRADE_BALANCE_FRACTION of the
wallet at the mark price, then pass the quantity through Python
three-decimal fixed-point formatting. -/
def compute_position_size (wallet_balance mark_price : ℚ) : ℚ :=
  let usd_to_use := wallet_balance * TRADE_BALANCE_FRACTION
  if usd_to_use ≤ 0 ∨ mark_price ≤ 0 then 0
  else roundTo3 (usd_to_use / mark_price)

-- ======================
--  bot.py compute_pnl
-- ======================

/-- bot.py compute_pnl: realized PnL in quote units and as a percentage of
the entry notional; degenerate positions give (0, 0). -/
def compute_pnl (entry_price exit_price qty : ℚ) (side : String) : ℚ × ℚ :=
  if qty ≤ 0 ∨ entry_price ≤ 0 then (0, 0)
  else
    let pnl := if side == "BUY" then (exit_price - entry_price) * qty
               else (entry_price - exit_price) * qty
    let notional := entry_price * qty
    let pnl_pct := if 0 < notional then pnl / notional * 100 else 0
    (pnl, pnl_pct)

-- ======================
--  Theorems: C1, C3, C8, C9
-- ======================

/-- C1 counterexample: the claim asserts can_open_new_trade returns false
(not an exception) whenever day_start_equity ≤ 0, but at day_start_equity =
0 the source divides by zero and raises ZeroDivisionError. -/
theorem C1_counterexample :
    can_open_new_trade { day_start_equity := 0, day_start_date := "2025-01-01" } 0 =
      Except.error "ZeroDivisionError" ∧
    can_open_new_trade { day_start_equity := 0, day_start_date := "2025-01-01" } 0 ≠
      Except.ok false := by
  constructor
  · rfl
  · intro h
    simp [can_open_new_trade] at h

/-- C1 amended: for equity ≥ 0, can_open_new_trade returns true iff
(day_start_equity - equity) / day_start_equity < DAILY_DRAWDOWN_LIMIT when
day_start_equity > 0; it returns false when day_start_equity < 0; and it
raises ZeroDivisionError (rather than returning false) when
day_start_equity = 0. -/
theorem C1_amended (s : RiskState) (e : ℚ) (he : 0 ≤ e) :
    (0 < s.day_start_equity →
      (can_open_new_trade s e = Except.ok true ↔
        (s.day_start_equity - e) / s.day_start_equity < DAILY_DRAWDOWN_LIMIT)) ∧
    (s.day_start_equity < 0 → can_open_new_trade s e = Except.ok false) ∧
    (s.day_start_equity = 0 →
      can_open_new_trade s e = Except.error "ZeroDivisionError") := by
  refine ⟨?_, ?_, ?_⟩
  · intro hd
    rw [can_open_new_trade, if_neg (ne_of_gt hd)]
    simp
  · intro hd
    rw [can_open_new_trade, if_neg (ne_of_lt hd)]
    have h1 : 1 ≤ (s.day_start_equity - e) / s.day_start_equity := by
      rw [le_div_iff_of_neg hd]
      linarith
    have h2 : ¬ (s.day_start_equity - e) / s.day_start_equity <
        DAILY_DRAWDOWN_LIMIT := by
      rw [DAILY_DRAWDOWN_LIMIT]
      intro hc
      linarith
    simp [h2]
  · intro hd
    rw [can_open_new_trade, if_pos hd]

/-- C1 witness: concrete instance of the amended theorem at a healthy state
(baseline 100, equity 95: a 5 percent drawdown, below the 10 percent limit). -/
theorem C1_witness :
    (0:ℚ) ≤ 95 ∧
    (0 < (100:ℚ) →
      (can_open_new_trade { day_start_equity := 100, day_start_date := "2025-01-01" } 95 =
          Except.ok true ↔
        ((100:ℚ) - 95) / 100 < DAILY_DRAWDOWN_LIMIT)) :=
  ⟨by norm_num,
   (C1_amended { day_start_equity := 100, day_start_date := "2025-01-01" } 95
     (by norm_num)).1⟩

/-- C3: evaluation of compute_position_size at the spec examples and at the
failing input for the floor claim.  With wallet 18 and price 2000 the raw
quantity is 0.0009; Python three-decimal formatting rounds it UP to 0.001,
whereas the claimed floor/truncation would give 0.  The spec examples
(wallet 1000, price 2000 gives 0.05; wallet 0 gives 0) do hold. -/
theorem C3_code_eval :
    compute_position_size 18 2000 = 1/1000 ∧
    ((⌊(18:ℚ) * TRADE_BALANCE_FRACTION / 2000 * 1000⌋ : ℚ) / 1000 = 0) ∧
    (1:ℚ)/1000 ≠ 0 ∧
    compute_position_size 1000 2000 = 1/20 ∧
    compute_position_size 0 2000 = 0 := by
  refine ⟨?_, ?_, ?_, ?_, ?_⟩ <;>
    norm_num [compute_position_size, roundTo3, pyRoundHalfEven,
      TRADE_BALANCE_FRACTION, Int.floor_eq_iff]

/-- C8: for quantity > 0 and entry price > 0, compute_pnl returns
(exit - entry) times qty for side BUY and (entry - exit) times qty for side
SELL, with the percentage PnL / (entry times qty) times 100 (the notional is
positive, so the zero-notional guard is not taken). -/
theorem C8_compute_pnl (entry_price exit_price qty : ℚ) (side : String)
    (hq : 0 < qty) (he : 0 < entry_price) :
    (side = "BUY" →
      compute_pnl entry_price exit_price qty side =
        ((exit_price - entry_price) * qty,
         (exit_price - entry_price) * qty / (entry_price * qty) * 100)) ∧
    (side = "SELL" →
      compute_pnl entry_price exit_price qty side =
        ((entry_price - exit_price) * qty,
         (entry_price - exit_price) * qty / (entry_price * qty) * 100)) := by
  have hno : 0 < entry_price * qty := mul_pos he hq
  have hcond : ¬ (qty ≤ 0 ∨ entry_price ≤ 0) := by
    push_neg
    exact ⟨hq, he⟩
  constructor
  · intro hside
    subst hside
    rw [compute_pnl, if_neg hcond]
    simp [if_pos hno]
  · intro hside
    subst hside
    rw [compute_pnl, if_neg hcond]
    simp [if_pos hno]

/-- C8 witness: the round-trip examples.  A long with entry 100, exit 110,
quantity 2 yields PnL 20 and 10 percent; a short with entry 100, exit 90,
quantity 2 yields PnL 20 and 10 percent. -/
theorem C8_witness :
    compute_pnl 100 110 2 "BUY" = (20, 10) ∧
    compute_pnl 100 90 2 "SELL" = (20, 10) := by
  have h1 := (C8_compute_pnl 100 110 2 "BUY" (by norm_num) (by norm_num)).1 rfl
  have h2 := (C8_compute_pnl 100 90 2 "SELL" (by norm_num) (by norm_num)).2 rfl
  rw [h1, h2]
  norm_num

/-- C9: maybe_reset_day is a pure function of (today, state, equity): when
today equals the stored day_start_date it returns the state unchanged, and
doing so twice also returns it unchanged; when the date differs it returns a
fresh RiskState anchored to the new date and the given equity; and it is
idempotent in general. -/
theorem C9_roll_day (today : String) (s : RiskState) (e : ℚ) :
    (today = s.day_start_date →
      maybe_reset_day today s e = s ∧
      maybe_reset_day today (maybe_reset_day today s e) e = s) ∧
    (today ≠ s.day_start_date →
      maybe_reset_day today s e =
        { day_start_equity := e, day_start_date := today }) ∧
    maybe_reset_day today (maybe_reset_day today s e) e =
      maybe_reset_day today s e := by
  by_cases h : today = s.day_start_date
  · refine ⟨fun _ => ?_, fun hc => absurd h hc, ?_⟩
    · constructor <;> simp [maybe_reset_day, h]
    · simp [maybe_reset_day, h]
  · refine ⟨fun hc => absurd hc h, fun _ => ?_, ?_⟩
    · simp [maybe_reset_day, h]
    · simp [maybe_reset_day, h]

/-- C9 witness: concrete same-day and day-rolled instances of the theorem. -/
theorem C9_witness :
    (maybe_reset_day "2025-01-02"
      { day_start_equity := 100, day_start_date := "2025-01-02" } 50 =
      { day_start_equity := 100, day_start_date := "2025-01-02" }) ∧
    (maybe_reset_day "2025-01-03"
      { day_start_equity := 100, day_start_date := "2025-01-02" } 50 =
      { day_start_equity := 50, day_start_date := "2025-01-03" }) :=
  ⟨((C9_roll_day "2025-01-02"
      { day_start_equity := 100, day_start_date := "2025-01-02" } 50).1 rfl).1,
   (C9_roll_day "2025-01-03"
      { day_start_equity := 100, day_start_date := "2025-01-02" } 50).2.1
     (by decide)⟩

-- ======================
--  indicators.py
-- ======================

/-- One OHLCV candle (the converted float columns of a kline row). -/
structure Candle where
  open_px : ℚ
  high : ℚ
  low : ℚ
  close : ℚ
  volume : ℚ
deriving DecidableEq, Repr

/-- Recursive step of pandas ewm(span, adjust=False).mean(): each output is
(1 - alpha) times the previous output plus alpha times the input. -/
def ewmGo (alpha : ℚ) (prev : RF) : List RF → List RF
  | [] => []
  | x :: xs =>
      let y := RF.add (RF.mul (RF.fin (1 - alpha)) prev) (RF.mul (RF.fin alpha) x)
      y :: ewmGo alpha y xs

/-- Pandas ewm(span, adjust=False).mean() on a series: seeded with the first
observed value.  In this engine it is only ever applied to NaN-free series
(close prices and the MACD line built from them). -/
def ewmMean (alpha : ℚ) : List RF → List RF
  | [] => []
  | x :: xs => x :: ewmGo alpha x xs

/-- indicators.py ema: exponential moving average, span smoothing
alpha = 2 / (period + 1), adjust=False. -/
def ema (series : List RF) (period : Nat) : List RF :=
  ewmMean (2 / ((period : ℚ) + 1)) series

/-- indicators.py rsi, step 1: the positive parts of the one-step deltas. -/
def rsi_gain (series : List RF) : List RF :=
  (diffRF series).map RF.clipLower0

/-- indicators.py rsi, step 2: minus the negative parts of the deltas. -/
def rsi_loss (series : List RF) : List RF :=
  (diffRF series).map (fun d => RF.neg (RF.clipUpper0 d))

/-- indicators.py rsi: rolling mean of the gains over the window. -/
def rsi_avg_gain (series : List RF) (period : Nat) : List RF :=
  rollingMean period (rsi_gain series)

/-- indicators.py rsi: rolling mean of the losses over the window. -/
def rsi_avg_loss (series : List RF) (period : Nat) : List RF :=
  rollingMean period (rsi_loss series)

/-- indicators.py rsi: the relative strength rs = avg_gain / avg_loss,
elementwise with numpy division (positive / 0 is inf, 0 / 0 is NaN). -/
def rsi_rs (series : List RF) (period : Nat) : List RF :=
  List.zipWith RF.div (rsi_avg_gain series period) (rsi_avg_loss series period)

/-- indicators.py rsi: rsi_val = 100 - (100 / (1 + rs)), elementwise. -/
def rsi (series : List RF) (period : Nat) : List RF :=
  (rsi_rs series period).map (fun r =>
    RF.sub (RF.fin 100) (RF.div (RF.fin 100) (RF.add (RF.fin 1) r)))

/-- indicators.py macd: macd_line = ema(fast) - ema(slow), signal_line =
ewm(span=signal) of the macd line, histogram = their difference.  Returns
(macd_line, signal_line, histogram). -/
def macd (series : List RF) (fast slow signal_p : Nat) :
    List RF × List RF × List RF :=
  let ema_fast := ema series fast
  let ema_slow := ema series slow
  let macd_line := List.zipWith RF.sub ema_fast ema_slow
  let signal_line := ewmMean (2 / ((signal_p : ℚ) + 1)) macd_line
  let hist := List.zipWith RF.sub macd_line signal_line
  (macd_line, signal_line, hist)

/-- Executable rational approximation of the nonnegative square root (the
float sqrt is itself a rounded approximation; no claim here depends on the
numeric value of a standard deviation). -/
def sqrtApprox (q : ℚ) : ℚ :=
  if q ≤ 0 then 0
  else
    let s : ℕ := 10 ^ 6
    let n : ℕ := q.num.natAbs
    let d : ℕ := q.den
    ((Nat.sqrt (n * d * s * s) : ℚ)) / ((d : ℚ) * (s : ℚ))

/-- Sample standard deviation (pandas default ddof = 1) of one full rolling
window: NaN when any member is NaN or non-finite or the window has width at
most 1. -/
def winStd (p : Nat) (ws : List RF) : RF :=
  let fins := ws.foldr (fun w acc =>
    match w, acc with
    | RF.fin q, some qs => some (q :: qs)
    | _, _ => none) (some [])
  match fins with
  | none => RF.nan
  | some qs =>
      if p ≤ 1 then RF.nan
      else
        let mean := qs.foldr (· + ·) 0 / (p : ℚ)
        let var := (qs.map (fun x => (x - mean) ^ 2)).foldr (· + ·) 0 / ((p : ℚ) - 1)
        RF.fin (sqrtApprox var)

/-- Pandas Series.rolling(p).std(): same length, NaN during warm-up. -/
def rollingStd (p : Nat) (xs : List RF) : List RF :=
  (List.range xs.length).map (fun i =>
    if i + 1 < p then RF.nan else winStd p (windowAt p i xs))

/-- indicators.py bollinger_bands: sma plus or minus std_mult standard
deviations.  Returns (lower, sma, upper). -/
def bollinger_bands (series : List RF) (period : Nat) (std_mult : ℚ) :
    List RF × List RF × List RF :=
  let sma := rollingMean period series
  let std := rollingStd period series
  let upper := List.zipWith RF.add sma (std.map (fun s => RF.mul (RF.fin std_mult) s))
  let lower := List.zipWith RF.sub sma (std.map (fun s => RF.mul (RF.fin std_mult) s))
  (lower, sma, upper)

/-- The true-range series shared by indicators.py atr and adx (the source
repeats this block verbatim in both): the rowwise skipna maximum of
high - low, abs (high - prevClose) and abs (low - prevClose). -/
def trList (df : List Candle) : List RF :=
  let high := df.map (fun c => RF.fin c.high)
  let low := df.map (fun c => RF.fin c.low)
  let close := df.map (fun c => RF.fin c.close)
  let prev_close := shiftRF close
  let tr1 := List.zipWith RF.sub high low
  let tr2 := (List.zipWith RF.sub high prev_close).map RF.abs
  let tr3 := (List.zipWith RF.sub low prev_close).map RF.abs
  zipWith3 rowMax3 tr1 tr2 tr3

/-- indicators.py atr: the rolling mean of the true range over the period. -/
def atr (df : List Candle) (period : Nat) : List RF :=
  rollingMean period (trList df)

/-- indicators.py adx: directional movement index.  The source first zeroes
plus_dm where plus_dm < minus_dm in place, then zeroes minus_dm where
minus_dm is less than the ALREADY UPDATED plus_dm; that sequencing is
reproduced here. -/
def adx (df : List Candle) (period : Nat) : List RF :=
  let high := df.map (fun c => RF.fin c.high)
  let low := df.map (fun c => RF.fin c.low)
  let prev_high := shiftRF high
  let prev_low := shiftRF low
  let plus_dm0 := (List.zipWith RF.sub high prev_high).map RF.clipLower0
  let minus_dm0 := (List.zipWith RF.sub prev_low low).map RF.clipLower0
  let plus_dm := List.zipWith (fun pd md => if RF.ltB pd md then RF.fin 0 else pd)
    plus_dm0 minus_dm0
  let minus_dm := List.zipWith (fun md pd => if RF.ltB md pd then RF.fin 0 else md)
    minus_dm0 plus_dm
  let atr_series := rollingMean period (trList df)
  let plus_di := List.zipWith (fun x a => RF.mul (RF.fin 100) (RF.div x a))
    (rollingMean period plus_dm) atr_series
  let minus_di := List.zipWith (fun x a => RF.mul (RF.fin 100) (RF.div x a))
    (rollingMean period minus_dm) atr_series
  let dx := List.zipWith (fun pdi mdi =>
      RF.div (RF.mul (RF.fin 100) (RF.abs (RF.sub pdi mdi))) (RF.add pdi mdi))
    plus_di minus_di
  rollingMean period dx

-- ======================
--  Supporting lemmas on the series combinators
-- ======================

/-- shiftRF preserves the length of the series. -/
theorem shiftRF_length (xs : List RF) : (shiftRF xs).length = xs.length := by
  cases xs with
  | nil => rfl
  | cons x xs => simp [shiftRF]

/-- zipWith3 stops at the shortest input. -/
theorem zipWith3_length (f : RF → RF → RF → RF) (as bs cs : List RF) :
    (zipWith3 f as bs cs).length = min as.length (min bs.length cs.length) := by
  induction as generalizing bs cs with
  | nil => simp [zipWith3]
  | cons a as ih =>
    cases bs with
    | nil => simp [zipWith3]
    | cons b bs =>
      cases cs with
      | nil => simp [zipWith3]
      | cons c cs =>
        simp [zipWith3, ih]
        omega

/-- Every element of a zipWith3 comes from elements of the three inputs. -/
theorem mem_of_mem_zipWith3 (f : RF → RF → RF → RF) (as bs cs : List RF) (x : RF)
    (hx : x ∈ zipWith3 f as bs cs) :
    ∃ a ∈ as, ∃ b ∈ bs, ∃ c ∈ cs, x = f a b c := by
  induction as generalizing bs cs with
  | nil => simp [zipWith3] at hx
  | cons a as ih =>
    cases bs with
    | nil => simp [zipWith3] at hx
    | cons b bs =>
      cases cs with
      | nil => simp [zipWith3] at hx
      | cons c cs =>
        simp only [zipWith3, List.mem_cons] at hx
        rcases hx with h | h
        · exact ⟨a, by simp, b, by simp, c, by simp, h⟩
        · obtain ⟨a1, ha, b1, hb, c1, hc, hh⟩ := ih bs cs h
          exact ⟨a1, by simp [ha], b1, by simp [hb], c1, by simp [hc], hh⟩

/-- Every element of a binary zipWith comes from elements of both inputs. -/
theorem mem_of_mem_zipWith (f : RF → RF → RF) (as bs : List RF) (x : RF)
    (hx : x ∈ List.zipWith f as bs) :
    ∃ a ∈ as, ∃ b ∈ bs, x = f a b := by
  induction as generalizing bs with
  | nil => simp at hx
  | cons a as ih =>
    cases bs with
    | nil => simp at hx
    | cons b bs =>
      simp only [List.zipWith_cons_cons, List.mem_cons] at hx
      rcases hx with h | h
      · exact ⟨a, by simp, b, by simp, h⟩
      · obtain ⟨a1, ha, b1, hb, hh⟩ := ih bs h
        exact ⟨a1, by simp [ha], b1, by simp [hb], hh⟩

/-- Every element of a shifted series is NaN or an element of the series. -/
theorem mem_shiftRF (xs : List RF) (w : RF) (hw : w ∈ shiftRF xs) :
    w = RF.nan ∨ w ∈ xs := by
  cases xs with
  | nil => simp [shiftRF] at hw
  | cons x xs =>
    simp only [shiftRF, List.mem_cons] at hw
    rcases hw with h | h
    · exact Or.inl h
    · exact Or.inr (List.dropLast_subset _ h)

/-- rollingMean preserves the length of the series. -/
theorem rollingMean_length (p : Nat) (xs : List RF) :
    (rollingMean p xs).length = xs.length := by
  simp [rollingMean]

/-- Indexing a rolling mean inside the series: warm-up gives NaN, after the
warm-up the value is the window mean. -/
theorem rollingMean_getD (p : Nat) (xs : List RF) (i : Nat) (hi : i < xs.length)
    (d : RF) :
    (rollingMean p xs).getD i d =
      if i + 1 < p then RF.nan else winMean p (windowAt p i xs) := by
  have hlen : i < (rollingMean p xs).length := by
    rw [rollingMean_length]
    exact hi
  rw [List.getD_eq_getElem _ _ hlen]
  simp [rollingMean]

/-- The rolling window is a sub-collection of the series. -/
theorem windowAt_subset (p i : Nat) (xs : List RF) : windowAt p i xs ⊆ xs :=
  fun _ hw => List.drop_subset _ _ (List.take_subset _ _ hw)

/-- A sum of finite values is finite. -/
theorem sumRF_all_fin (ws : List RF) (h : ∀ w ∈ ws, ∃ q, w = RF.fin q) :
    ∃ s, sumRF ws = RF.fin s := by
  induction ws with
  | nil => exact ⟨0, rfl⟩
  | cons w ws ih =>
    obtain ⟨q, hq⟩ := h w (by simp)
    obtain ⟨s, hs⟩ := ih (fun x hx => h x (by simp [hx]))
    refine ⟨q + s, ?_⟩
    simp [sumRF] at hs ⊢
    rw [hq, hs]
    rfl

/-- A sum of finite nonnegative values is finite and nonnegative. -/
theorem sumRF_all_fin_nonneg (ws : List RF)
    (h : ∀ w ∈ ws, ∃ q, w = RF.fin q ∧ 0 ≤ q) :
    ∃ s, sumRF ws = RF.fin s ∧ 0 ≤ s := by
  induction ws with
  | nil => exact ⟨0, rfl, le_refl 0⟩
  | cons w ws ih =>
    obtain ⟨q, hq, hq0⟩ := h w (by simp)
    obtain ⟨s, hs, hs0⟩ := ih (fun x hx => h x (by simp [hx]))
    refine ⟨q + s, ?_, by linarith⟩
    simp [sumRF] at hs ⊢
    rw [hq, hs]
    rfl

/-- The full-window mean of finite values is finite (for a positive
period). -/
theorem winMean_all_fin (p : Nat) (hp : 1 ≤ p) (ws : List RF)
    (h : ∀ w ∈ ws, ∃ q, w = RF.fin q) :
    ∃ s, winMean p ws = RF.fin s := by
  have hany : ws.any RF.isNan = false := by
    rw [List.any_eq_false]
    intro x hx
    obtain ⟨q, rfl⟩ := h x hx
    simp [RF.isNan]
  obtain ⟨s, hs⟩ := sumRF_all_fin ws h
  have hpq : ((p : ℚ)) ≠ 0 := by
    have : (0:ℚ) < (p : ℚ) := by exact_mod_cast hp
    linarith
  refine ⟨s / p, ?_⟩
  rw [winMean, hs]
  simp [hany, RF.div, hpq]

/-- Subtraction of finite values is finite. -/
theorem RF.sub_fin (a b : ℚ) : RF.sub (RF.fin a) (RF.fin b) = RF.fin (a - b) := by
  simp [RF.sub, RF.add, RF.neg]
  ring

/-- Subtraction with a NaN right operand is NaN. -/
theorem RF.sub_fin_nan (a : ℚ) : RF.sub (RF.fin a) RF.nan = RF.nan := rfl

/-- Absolute value of a finite value is finite. -/
theorem RF.abs_fin (a : ℚ) : RF.abs (RF.fin a) = RF.fin |a| := rfl

/-- The skipna row maximum with a finite first candidate is finite whenever
the other two candidates are each NaN or finite. -/
theorem rowMax3_fin (a : ℚ) (y z : RF)
    (hy : y = RF.nan ∨ ∃ qb, y = RF.fin qb)
    (hz : z = RF.nan ∨ ∃ qc, z = RF.fin qc) :
    ∃ m, rowMax3 (RF.fin a) y z = RF.fin m := by
  rcases hy with rfl | ⟨qb, rfl⟩ <;> rcases hz with rfl | ⟨qc, rfl⟩
  · exact ⟨a, by simp [rowMax3, RF.max2, RF.isNan]⟩
  · by_cases h : a ≤ qc
    · exact ⟨qc, by simp [rowMax3, RF.max2, RF.isNan, RF.leB, h]⟩
    · exact ⟨a, by simp [rowMax3, RF.max2, RF.isNan, RF.leB, h]⟩
  · by_cases h : a ≤ qb
    · exact ⟨qb, by simp [rowMax3, RF.max2, RF.isNan, RF.leB, h]⟩
    · exact ⟨a, by simp [rowMax3, RF.max2, RF.isNan, RF.leB, h]⟩
  · by_cases h1 : a ≤ qb
    · by_cases h2 : qb ≤ qc
      · exact ⟨qc, by simp [rowMax3, RF.max2, RF.isNan, RF.leB, h1, h2]⟩
      · exact ⟨qb, by simp [rowMax3, RF.max2, RF.isNan, RF.leB, h1, h2]⟩
    · by_cases h2 : a ≤ qc
      · exact ⟨qc, by simp [rowMax3, RF.max2, RF.isNan, RF.leB, h1, h2]⟩
      · exact ⟨a, by simp [rowMax3, RF.max2, RF.isNan, RF.leB, h1, h2]⟩

/-- The true-range series has the same length as the candle series. -/
theorem trList_length (df : List Candle) : (trList df).length = df.length := by
  simp [trList, zipWith3_length, shiftRF_length]

/-- Every true-range entry is finite: the first row keeps high - low because
the pandas rowwise maximum skips the NaN entries produced by the shifted
close, and later rows have all three candidates finite. -/
theorem trList_all_fin (df : List Candle) :
    ∀ w ∈ trList df, ∃ q, w = RF.fin q := by
  intro w hw
  simp only [trList] at hw
  obtain ⟨a, ha, b, hb, c, hc, rfl⟩ := mem_of_mem_zipWith3 _ _ _ _ _ hw
  obtain ⟨x, hx, y, hy, rfl⟩ := mem_of_mem_zipWith _ _ _ _ ha
  obtain ⟨ch, _, rfl⟩ := List.mem_map.mp hx
  obtain ⟨cl, _, rfl⟩ := List.mem_map.mp hy
  have hb2 : b = RF.nan ∨ ∃ q, b = RF.fin q := by
    obtain ⟨u, hu, rfl⟩ := List.mem_map.mp hb
    obtain ⟨x2, hx2, y2, hy2, rfl⟩ := mem_of_mem_zipWith _ _ _ _ hu
    obtain ⟨ch2, _, rfl⟩ := List.mem_map.mp hx2
    rcases mem_shiftRF _ _ hy2 with h | h
    · subst h
      left
      rw [RF.sub_fin_nan]
      rfl
    · obtain ⟨cc2, _, rfl⟩ := List.mem_map.mp h
      right
      rw [RF.sub_fin, RF.abs_fin]
      exact ⟨_, rfl⟩
  have hc2 : c = RF.nan ∨ ∃ q, c = RF.fin q := by
    obtain ⟨u, hu, rfl⟩ := List.mem_map.mp hc
    obtain ⟨x2, hx2, y2, hy2, rfl⟩ := mem_of_mem_zipWith _ _ _ _ hu
    obtain ⟨cl2, _, rfl⟩ := List.mem_map.mp hx2
    rcases mem_shiftRF _ _ hy2 with h | h
    · subst h
      left
      rw [RF.sub_fin_nan]
      rfl
    · obtain ⟨cc2, _, rfl⟩ := List.mem_map.mp h
      right
      rw [RF.sub_fin, RF.abs_fin]
      exact ⟨_, rfl⟩
  rw [RF.sub_fin]
  exact rowMax3_fin _ _ _ hb2 hc2

-- ======================
--  Theorems: C6 (ATR warm-up window)
-- ======================

/-- Concrete two-candle series used for the C6 counterexample and witness. -/
def df2c : List Candle :=
  [{ open_px := 1, high := 3, low := 1, close := 2, volume := 0 },
   { open_px := 1, high := 4, low := 2, close := 3, volume := 0 }]

/-- C6 counterexample: the claim says ATR(p) is undefined for the first p
positions (indices 0 through p - 1).  With period 2 on a two-candle series
the value at index 1 = p - 1 is already defined (the pandas rowwise maximum
skips the NaN true-range candidates of row 0, so the very first window is
complete): it equals 2, not NaN. -/
theorem C6_counterexample :
    (atr df2c 2).getD 1 RF.nan = RF.fin 2 ∧ RF.isNan (RF.fin 2) = false := by
  constructor
  · norm_num [atr, df2c, trList, rollingMean, windowAt, winMean, sumRF, shiftRF,
      zipWith3, rowMax3, RF.max2, RF.isNan, RF.leB, RF.sub, RF.add, RF.neg,
      RF.abs, RF.div, List.range_succ, List.getD_cons_succ, List.getD_cons_zero]
  · rfl

/-- C6 amended: for every candle series and period p ≥ 1, atr returns a
series of the same length whose entries are NaN for exactly the first p - 1
positions and defined (the rolling mean of the true range, whose first row
keeps high - low because the skipna row maximum drops the NaN candidates)
from position p - 1 onward. -/
theorem C6_amended (df : List Candle) (p : Nat) (hp : 1 ≤ p) :
    (atr df p).length = df.length ∧
    ∀ i, i < df.length →
      (RF.isNan ((atr df p).getD i RF.nan) = true ↔ i + 1 < p) := by
  constructor
  · rw [atr, rollingMean_length, trList_length]
  · intro i hi
    have hi2 : i < (trList df).length := by
      rw [trList_length]
      exact hi
    rw [atr, rollingMean_getD p _ i hi2]
    by_cases hc : i + 1 < p
    · simp [hc, RF.isNan]
    · rw [if_neg hc]
      simp only [hc, iff_false]
      obtain ⟨s, hs⟩ := winMean_all_fin p hp (windowAt p i (trList df))
        (fun w hw => trList_all_fin df w (windowAt_subset p i _ hw))
      rw [hs]
      simp [RF.isNan]

/-- C6 witness: the amended theorem applied at the concrete two-candle
series with period 2; position 0 (the single warm-up position) is NaN. -/
theorem C6_witness : RF.isNan ((atr df2c 2).getD 0 RF.nan) = true :=
  ((C6_amended df2c 2 (by decide)).2 0 (by decide)).mpr (by decide)

-- ======================
--  Supporting lemmas for the RSI analysis
-- ======================

/-- diff preserves length. -/
theorem diffRF_length (xs : List RF) : (diffRF xs).length = xs.length := by
  simp [diffRF, shiftRF_length]

/-- The gains series has the length of the input. -/
theorem rsi_gain_length (xs : List RF) : (rsi_gain xs).length = xs.length := by
  simp [rsi_gain, diffRF_length]

/-- The losses series has the length of the input. -/
theorem rsi_loss_length (xs : List RF) : (rsi_loss xs).length = xs.length := by
  simp [rsi_loss, diffRF_length]

/-- The relative-strength series has the length of the input. -/
theorem rsi_rs_length (xs : List RF) (p : Nat) :
    (rsi_rs xs p).length = xs.length := by
  simp [rsi_rs, rsi_avg_gain, rsi_avg_loss, rollingMean_length,
    rsi_gain_length, rsi_loss_length]

/-- The RSI series has the length of the input. -/
theorem rsi_length (xs : List RF) (p : Nat) : (rsi xs p).length = xs.length := by
  simp [rsi, rsi_rs_length]

/-- Indexing a binary zipWith inside both inputs. -/
theorem getD_zipWith_rf (f : RF → RF → RF) (as bs : List RF) (i : Nat)
    (ha : i < as.length) (hb : i < bs.length) :
    (List.zipWith f as bs).getD i RF.nan = f (as.getD i RF.nan) (bs.getD i RF.nan) := by
  have h : i < (List.zipWith f as bs).length := by
    simp only [List.length_zipWith]
    omega
  rw [List.getD_eq_getElem _ _ h, List.getElem_zipWith,
      List.getD_eq_getElem _ _ ha, List.getD_eq_getElem _ _ hb]

/-- Indexing a map inside the input. -/
theorem getD_map_rf (f : RF → RF) (l : List RF) (i : Nat) (h : i < l.length) :
    (l.map f).getD i RF.nan = f (l.getD i RF.nan) := by
  have h2 : i < (l.map f).length := by
    simp only [List.length_map]
    exact h
  rw [List.getD_eq_getElem _ _ h2, List.getElem_map, List.getD_eq_getElem _ _ h]

/-- Division by NaN is NaN. -/
theorem RF.div_nan (x : RF) : RF.div x RF.nan = RF.nan := by
  cases x <;> rfl

/-- Past the warm-up boundary, the rolling window is exactly the indexed
family over the p preceding positions. -/
theorem windowAt_eq_map (p i : Nat) (xs : List RF) (hp1 : p ≤ i + 1)
    (hi : i < xs.length) :
    windowAt p i xs = (List.range p).map (fun j => xs.getD (i + 1 - p + j) RF.nan) := by
  apply List.ext_getElem
  · simp only [windowAt, List.length_take, List.length_drop, List.length_map,
      List.length_range]
    omega
  · intro k h1 h2
    have hk : k < p := by
      simp only [windowAt, List.length_take, List.length_drop] at h1
      omega
    have hidx : i + 1 - p + k < xs.length := by omega
    simp only [windowAt, List.getElem_take, List.getElem_drop, List.getElem_map,
      List.getElem_range, List.getD_eq_getElem _ _ hidx]

/-- The first delta of a nonempty series is NaN (there is no previous
sample). -/
theorem delta_getD_zero (closes : List ℚ) (h : 0 < closes.length) :
    (diffRF (closes.map RF.fin)).getD 0 RF.nan = RF.nan := by
  cases closes with
  | nil => simp at h
  | cons c rest =>
    simp only [List.map_cons, diffRF, shiftRF, List.zipWith_cons_cons,
      List.getD_cons_zero]
    rfl

/-- Every delta is NaN or finite when the input samples are finite. -/
theorem delta_nan_or_fin (closes : List ℚ) (k : Nat)
    (hk : k < (diffRF (closes.map RF.fin)).length) :
    (diffRF (closes.map RF.fin)).getD k RF.nan = RF.nan ∨
    ∃ d, (diffRF (closes.map RF.fin)).getD k RF.nan = RF.fin d := by
  rw [List.getD_eq_getElem _ _ hk]
  have hmem := List.getElem_mem hk
  obtain ⟨a, ha, b, hb, heq⟩ := mem_of_mem_zipWith _ _ _ _ hmem
  obtain ⟨qa, _, rfl⟩ := List.mem_map.mp ha
  rcases mem_shiftRF _ _ hb with rfl | hbm
  · left
    rw [heq, RF.sub_fin_nan]
  · obtain ⟨qb, _, rfl⟩ := List.mem_map.mp hbm
    right
    rw [heq, RF.sub_fin]
    exact ⟨_, rfl⟩

-- ======================
--  Theorems: C7 (RSI at zero average loss)
-- ======================

/-- C7 amended: whenever the rolling average loss is zero at an in-range
position, the RSI value there is either exactly 100 (positive average gain:
rs is +inf and 100 - 100/(1+rs) collapses to the finite saturated endpoint
100) or NaN (average gain also zero: rs is 0/0); it is never any other
finite reading, and never an exception.  RSI remains NaN until period
deltas are available (the first delta is NaN, so every window touching
position 0 is NaN). -/
theorem C7_amended (closes : List ℚ) (p i : Nat) (hp : 1 ≤ p)
    (hi : i < closes.length)
    (hl : (rsi_avg_loss (closes.map RF.fin) p).getD i RF.nan = RF.fin 0) :
    ((rsi (closes.map RF.fin) p).getD i RF.nan = RF.fin 100 ∨
     (rsi (closes.map RF.fin) p).getD i RF.nan = RF.nan) ∧
    (∀ j, j < p → j < closes.length →
      (rsi (closes.map RF.fin) p).getD j RF.nan = RF.nan) := by
  have hxlen : (closes.map RF.fin).length = closes.length := List.length_map _ _
  have hlossLen : (rsi_loss (closes.map RF.fin)).length = closes.length := by
    rw [rsi_loss_length, hxlen]
  have hgainLen : (rsi_gain (closes.map RF.fin)).length = closes.length := by
    rw [rsi_gain_length, hxlen]
  have hdeltaLen : (diffRF (closes.map RF.fin)).length = closes.length := by
    rw [diffRF_length, hxlen]
  have hrsi_getD : ∀ k, k < closes.length →
      (rsi (closes.map RF.fin) p).getD k RF.nan =
        RF.sub (RF.fin 100) (RF.div (RF.fin 100)
          (RF.add (RF.fin 1) ((rsi_rs (closes.map RF.fin) p).getD k RF.nan))) := by
    intro k hk
    have hk2 : k < (rsi_rs (closes.map RF.fin) p).length := by
      rw [rsi_rs_length, hxlen]
      exact hk
    rw [rsi, getD_map_rf _ _ _ hk2]
  have hrs_getD : ∀ k, k < closes.length →
      (rsi_rs (closes.map RF.fin) p).getD k RF.nan =
        RF.div ((rsi_avg_gain (closes.map RF.fin) p).getD k RF.nan)
          ((rsi_avg_loss (closes.map RF.fin) p).getD k RF.nan) := by
    intro k hk
    have h1 : k < (rsi_avg_gain (closes.map RF.fin) p).length := by
      rw [rsi_avg_gain, rollingMean_length, hgainLen]
      exact hk
    have h2 : k < (rsi_avg_loss (closes.map RF.fin) p).length := by
      rw [rsi_avg_loss, rollingMean_length, hlossLen]
      exact hk
    rw [rsi_rs, getD_zipWith_rf _ _ _ _ h1 h2]
  constructor
  · have hiloss : i < (rsi_loss (closes.map RF.fin)).length := by
      rw [hlossLen]
      exact hi
    have hl2 := hl
    rw [rsi_avg_loss, rollingMean_getD p _ i hiloss] at hl2
    by_cases hwarm : i + 1 < p
    · rw [if_pos hwarm] at hl2
      exact absurd hl2 (by simp)
    · rw [if_neg hwarm] at hl2
      have hp2 : p ≤ i + 1 := by omega
      rw [winMean] at hl2
      by_cases hany : (windowAt p i (rsi_loss (closes.map RF.fin))).any RF.isNan
      · rw [if_pos hany] at hl2
        exact absurd hl2 (by simp)
      · rw [if_neg hany] at hl2
        have hany2 : (windowAt p i (rsi_loss (closes.map RF.fin))).any RF.isNan
            = false := by
          simpa using hany
        have hwin_loss := windowAt_eq_map p i (rsi_loss (closes.map RF.fin)) hp2 hiloss
        have hnonan : ∀ j, j < p →
            RF.isNan ((rsi_loss (closes.map RF.fin)).getD (i + 1 - p + j) RF.nan)
              = false := by
          intro j hj
          have hmem : (rsi_loss (closes.map RF.fin)).getD (i + 1 - p + j) RF.nan ∈
              windowAt p i (rsi_loss (closes.map RF.fin)) := by
            rw [hwin_loss]
            exact List.mem_map.mpr ⟨j, List.mem_range.mpr hj, rfl⟩
          have hx := List.any_eq_false.mp hany2 _ hmem
          simpa using hx
        have hdelta_fin : ∀ j, j < p → ∃ d,
            (diffRF (closes.map RF.fin)).getD (i + 1 - p + j) RF.nan = RF.fin d := by
          intro j hj
          have hk : i + 1 - p + j < (diffRF (closes.map RF.fin)).length := by
            rw [hdeltaLen]
            omega
          rcases delta_nan_or_fin closes (i + 1 - p + j) hk with hnan | hfin
          · exfalso
            have hloss_eq : (rsi_loss (closes.map RF.fin)).getD (i + 1 - p + j) RF.nan =
                RF.neg (RF.clipUpper0
                  ((diffRF (closes.map RF.fin)).getD (i + 1 - p + j) RF.nan)) := by
              rw [rsi_loss, getD_map_rf _ _ _ (by rw [hdeltaLen]; omega)]
            have hcontra := hnonan j hj
            rw [hloss_eq, hnan] at hcontra
            simp [RF.clipUpper0, RF.neg, RF.isNan] at hcontra
          · exact hfin
        have hgain_fin : ∀ j, j < p → ∃ q,
            (rsi_gain (closes.map RF.fin)).getD (i + 1 - p + j) RF.nan = RF.fin q ∧
              0 ≤ q := by
          intro j hj
          obtain ⟨d, hd⟩ := hdelta_fin j hj
          have hgain_eq : (rsi_gain (closes.map RF.fin)).getD (i + 1 - p + j) RF.nan =
              RF.clipLower0
                ((diffRF (closes.map RF.fin)).getD (i + 1 - p + j) RF.nan) := by
            rw [rsi_gain, getD_map_rf _ _ _ (by rw [hdeltaLen]; omega)]
          rw [hgain_eq, hd]
          exact ⟨max d 0, rfl, le_max_right d 0⟩
        have higain : i < (rsi_gain (closes.map RF.fin)).length := by
          rw [hgainLen]
          exact hi
        have hwin_gain := windowAt_eq_map p i (rsi_gain (closes.map RF.fin)) hp2 higain
        have hgwin : ∀ w ∈ windowAt p i (rsi_gain (closes.map RF.fin)),
            ∃ q, w = RF.fin q ∧ 0 ≤ q := by
          rw [hwin_gain]
          intro w hw
          obtain ⟨j, hj, rfl⟩ := List.mem_map.mp hw
          exact hgain_fin j (List.mem_range.mp hj)
        have hganynan : (windowAt p i (rsi_gain (closes.map RF.fin))).any RF.isNan
            = false := by
          rw [List.any_eq_false]
          intro x hx
          obtain ⟨q, rfl, _⟩ := hgwin x hx
          simp [RF.isNan]
        obtain ⟨s, hsum, hs0⟩ := sumRF_all_fin_nonneg _ hgwin
        have hppos : (0:ℚ) < (p:ℚ) := by exact_mod_cast hp
        have hpq : ((p:ℚ)) ≠ 0 := by linarith
        have hgavg : (rsi_avg_gain (closes.map RF.fin) p).getD i RF.nan =
            RF.fin (s / p) := by
          rw [rsi_avg_gain, rollingMean_getD p _ i higain, if_neg hwarm]
          simp [winMean, hganynan, hsum, RF.div, hpq]
        have hg0 : 0 ≤ s / (p:ℚ) := div_nonneg hs0 (le_of_lt hppos)
        have hrs : (rsi_rs (closes.map RF.fin) p).getD i RF.nan =
            RF.div (RF.fin (s / p)) (RF.fin 0) := by
          rw [hrs_getD i hi, hgavg, hl]
        rcases lt_or_eq_of_le hg0 with hpos | hzero
        · left
          rw [hrsi_getD i hi, hrs]
          rw [show RF.div (RF.fin (s / (p:ℚ))) (RF.fin 0) = RF.inf from by
            simp [RF.div, hpos]]
          rw [show RF.add (RF.fin 1) RF.inf = RF.inf from rfl]
          rw [show RF.div (RF.fin 100) RF.inf = RF.fin 0 from rfl]
          rw [RF.sub_fin]
          norm_num
        · right
          rw [hrsi_getD i hi, hrs, ← hzero]
          rw [show RF.div (RF.fin 0) (RF.fin 0) = RF.nan from by norm_num [RF.div]]
          rfl
  · intro j hj hjn
    have hjloss : j < (rsi_loss (closes.map RF.fin)).length := by
      rw [hlossLen]
      exact hjn
    have hlavg_j : (rsi_avg_loss (closes.map RF.fin) p).getD j RF.nan = RF.nan := by
      rw [rsi_avg_loss, rollingMean_getD p _ j hjloss]
      by_cases hw : j + 1 < p
      · rw [if_pos hw]
      · rw [if_neg hw]
        have hp2 : p ≤ j + 1 := by omega
        have hwin := windowAt_eq_map p j (rsi_loss (closes.map RF.fin)) hp2 hjloss
        have hnanmem : RF.nan ∈ windowAt p j (rsi_loss (closes.map RF.fin)) := by
          rw [hwin]
          refine List.mem_map.mpr ⟨0, List.mem_range.mpr (by omega), ?_⟩
          have h0 : j + 1 - p + 0 = 0 := by omega
          rw [h0]
          have hdd : (diffRF (closes.map RF.fin)).getD 0 RF.nan = RF.nan :=
            delta_getD_zero closes (by omega)
          rw [rsi_loss, getD_map_rf _ _ _ (by rw [diffRF_length, hxlen]; omega), hdd]
          rfl
        have hany : (windowAt p j (rsi_loss (closes.map RF.fin))).any RF.isNan
            = true :=
          List.any_eq_true.mpr ⟨RF.nan, hnanmem, rfl⟩
        simp [winMean, hany]
    have hrsj : (rsi_rs (closes.map RF.fin) p).getD j RF.nan = RF.nan := by
      rw [hrs_getD j hjn, hlavg_j, RF.div_nan]
    rw [hrsi_getD j hjn, hrsj]
    rfl

/-- Concrete rising close series used for the C7 counterexample and witness. -/
def c7closes : List ℚ := [1, 2, 3]

/-- C7 counterexample: on the strictly rising series 1, 2, 3 with period 2,
the rolling average loss at position 2 is zero, yet the RSI value there is
exactly 100 — a finite value on the 0 to 100 scale, not undefined and not
infinite, contradicting the claim. -/
theorem C7_counterexample :
    (rsi_avg_loss (c7closes.map RF.fin) 2).getD 2 RF.nan = RF.fin 0 ∧
    (rsi (c7closes.map RF.fin) 2).getD 2 RF.nan = RF.fin 100 ∧
    RF.isNan (RF.fin 100) = false ∧ RF.fin 100 ≠ RF.nan ∧ RF.fin 100 ≠ RF.inf := by
  refine ⟨?_, ?_, rfl, by simp, by simp⟩
  · norm_num [c7closes, rsi_avg_loss, rsi_loss, diffRF, shiftRF, rollingMean,
      windowAt, winMean, sumRF, RF.sub, RF.add, RF.neg, RF.div, RF.clipUpper0,
      RF.isNan, List.range_succ]
  · norm_num [c7closes, rsi, rsi_rs, rsi_avg_gain, rsi_avg_loss, rsi_gain,
      rsi_loss, diffRF, shiftRF, rollingMean, windowAt, winMean, sumRF, RF.sub,
      RF.add, RF.neg, RF.div, RF.clipUpper0, RF.clipLower0, RF.isNan,
      List.range_succ]

/-- C7 witness: the amended theorem applied at the concrete rising series
with period 2 and position 2, discharging every hypothesis there. -/
theorem C7_witness :
    ((rsi (c7closes.map RF.fin) 2).getD 2 RF.nan = RF.fin 100 ∨
     (rsi (c7closes.map RF.fin) 2).getD 2 RF.nan = RF.nan) ∧
    (∀ j, j < 2 → j < c7closes.length →
      (rsi (c7closes.map RF.fin) 2).getD j RF.nan = RF.nan) :=
  C7_amended c7closes 2 2 (by norm_num) (by norm_num [c7closes])
    (by norm_num [c7closes, rsi_avg_loss, rsi_loss, diffRF, shiftRF, rollingMean,
      windowAt, winMean, sumRF, RF.sub, RF.add, RF.neg, RF.div, RF.clipUpper0,
      RF.isNan, List.range_succ])

-- ======================
--  strategy.py
-- ======================

/-- config.py MACD_FAST default 8. -/
def MACD_FAST : Nat := 8

/-- config.py MACD_SLOW default 17. -/
def MACD_SLOW : Nat := 17

/-- config.py MACD_SIGNAL default 5. -/
def MACD_SIGNAL : Nat := 5

/-- Left-pad a digit string with zeros to the requested width. -/
def natPad (dp : Nat) (s : String) : String :=
  if s.length < dp then String.mk (List.replicate (dp - s.length) '0') ++ s else s

/-- Python fixed-point formatting of a float with dp decimal digits, as used
by the f-strings in strategy.py and bot.py (nearest, ties to even; NaN and
the infinities print as their names). -/
def fmtFixed (dp : Nat) (x : RF) : String :=
  match x with
  | RF.nan => "nan"
  | RF.inf => "inf"
  | RF.ninf => "-inf"
  | RF.fin q =>
      let n := pyRoundHalfEven (q * (10 ^ dp : ℚ))
      let sign := if n < 0 then "-" else ""
      let m := n.natAbs
      let ip := m / 10 ^ dp
      let fp := m % 10 ^ dp
      if dp = 0 then sign ++ toString ip
      else sign ++ toString ip ++ "." ++ natPad dp (toString fp)

/-- Python str of a bool, used in the conditions line of the explanation. -/
def fmtPyBool (b : Bool) : String := if b then "True" else "False"

/-- Python newline join of the explanation parts. -/
def joinNL : List String → String
  | [] => ""
  | p :: rest => rest.foldl (fun acc s => acc ++ "\n" ++ s) p

/-- Python semicolon-space join of the failure reasons. -/
def joinSemi : List String → String
  | [] => ""
  | p :: rest => rest.foldl (fun acc s => acc ++ "; " ++ s) p

/-- strategy.py Signal: a one-shot directional entry signal. -/
structure Signal where
  side : String
  reason : String
deriving DecidableEq, Repr

/-- The element at pandas position -2 (NaN for series shorter than 2). -/
def secondLastD (l : List RF) : RF := l.dropLast.getLastD RF.nan

/-- All scalar values read by evaluate_strategy from the indicator series
(the iloc[-1] / iloc[-2] reads of strategy.py lines 64 to 133), plus the two
regime classifications derived from them. -/
structure StratVals where
  ema50_1h : RF
  ema100_1h : RF
  adx_1h : RF
  big_trend : String
  ema50_30 : RF
  ema100_30 : RF
  adx_30 : RF
  mid_trend : String
  rsi_last : RF
  rsi_prev : RF
  macd_hist_last : RF
  macd_hist_prev : RF
  vol_last : RF
  vol_ma20 : RF
  ema50_15 : RF
  ema100_15 : RF
  bb_lower : RF
  bb_upper : RF
  close_15 : RF
deriving Repr

/-- strategy.py lines 64 to 133: compute the indicator series on the three
(already trailing-candle-stripped) frames and read off the last and
second-to-last scalars; classify the 1h regime (UP, DOWN or RANGE via
EMA50 vs EMA100 and the ADX threshold) and the 30m bias (UP, DOWN or FLAT,
no strength filter). -/
def strat_vals (df15 df30 df1h : List Candle) : StratVals :=
  let close1h := df1h.map (fun c => RF.fin c.close)
  let ema50_1h := (ema close1h 50).getLastD RF.nan
  let ema100_1h := (ema close1h 100).getLastD RF.nan
  let adx_1h := (adx df1h 14).getLastD RF.nan
  let big_trend :=
    if RF.gtB ema50_1h ema100_1h && RF.gtB adx_1h (RF.fin ADX_THRESHOLD_TREND)
    then "UP"
    else if RF.ltB ema50_1h ema100_1h && RF.gtB adx_1h (RF.fin ADX_THRESHOLD_TREND)
    then "DOWN"
    else "RANGE"
  let close30 := df30.map (fun c => RF.fin c.close)
  let ema50_30 := (ema close30 50).getLastD RF.nan
  let ema100_30 := (ema close30 100).getLastD RF.nan
  let adx_30 := (adx df30 14).getLastD RF.nan
  let mid_up := RF.gtB ema50_30 ema100_30
  let mid_down := RF.ltB ema50_30 ema100_30
  let mid_trend := if mid_up then "UP" else if mid_down then "DOWN" else "FLAT"
  let close15 := df15.map (fun c => RF.fin c.close)
  let vol15 := df15.map (fun c => RF.fin c.volume)
  let ema50_15 := (ema close15 50).getLastD RF.nan
  let ema100_15 := (ema close15 100).getLastD RF.nan
  let rsi15 := rsi close15 14
  let md := macd close15 MACD_FAST MACD_SLOW MACD_SIGNAL
  let hist := md.2.2
  let vol_ma20 := (rollingMean 20 vol15).getLastD RF.nan
  let bb := bollinger_bands close15 20 2
  { ema50_1h := ema50_1h, ema100_1h := ema100_1h, adx_1h := adx_1h,
    big_trend := big_trend,
    ema50_30 := ema50_30, ema100_30 := ema100_30, adx_30 := adx_30,
    mid_trend := mid_trend,
    rsi_last := rsi15.getLastD RF.nan, rsi_prev := secondLastD rsi15,
    macd_hist_last := hist.getLastD RF.nan, macd_hist_prev := secondLastD hist,
    vol_last := vol15.getLastD RF.nan, vol_ma20 := vol_ma20,
    ema50_15 := ema50_15, ema100_15 := ema100_15,
    bb_lower := bb.1.getLastD RF.nan, bb_upper := bb.2.2.getLastD RF.nan,
    close_15 := close15.getLastD RF.nan }

/-- strategy.py condition: RSI crossing up through 45 on the entry frame. -/
def rsi_cross_up (v : StratVals) : Bool :=
  RF.ltB v.rsi_prev (RF.fin 45) && RF.leB (RF.fin 45) v.rsi_last

/-- strategy.py condition: MACD histogram crossing from negative to
nonnegative. -/
def macd_bull (v : StratVals) : Bool :=
  RF.ltB v.macd_hist_prev (RF.fin 0) && RF.leB (RF.fin 0) v.macd_hist_last

/-- strategy.py condition: close above the 15m EMA50. -/
def price_above_ema50 (v : StratVals) : Bool := RF.gtB v.close_15 v.ema50_15

/-- strategy.py condition: volume above the trend multiple of its rolling
average. -/
def vol_ok_trend (v : StratVals) : Bool :=
  RF.gtB v.vol_last (RF.mul (RF.fin MIN_VOLUME_FACTOR_TREND) v.vol_ma20)

/-- strategy.py condition: 1h regime UP and 30m bias UP. -/
def long_trend_ok (v : StratVals) : Bool :=
  (v.big_trend == "UP") && (v.mid_trend == "UP")

/-- strategy.py condition: RSI crossing down through 55. -/
def rsi_cross_down (v : StratVals) : Bool :=
  RF.gtB v.rsi_prev (RF.fin 55) && RF.geB (RF.fin 55) v.rsi_last

/-- strategy.py condition: MACD histogram crossing from positive to
nonpositive. -/
def macd_bear (v : StratVals) : Bool :=
  RF.gtB v.macd_hist_prev (RF.fin 0) && RF.geB (RF.fin 0) v.macd_hist_last

/-- strategy.py condition: close below the 15m EMA50. -/
def price_below_ema50 (v : StratVals) : Bool := RF.ltB v.close_15 v.ema50_15

/-- strategy.py condition: same volume filter for the short trend entry. -/
def vol_ok_trend_short (v : StratVals) : Bool :=
  RF.gtB v.vol_last (RF.mul (RF.fin MIN_VOLUME_FACTOR_TREND) v.vol_ma20)

/-- strategy.py condition: 1h regime DOWN and 30m bias DOWN. -/
def short_trend_ok (v : StratVals) : Bool :=
  (v.big_trend == "DOWN") && (v.mid_trend == "DOWN")

/-- strategy.py condition: volume above the (lower) range multiple of its
rolling average. -/
def range_vol_ok (v : StratVals) : Bool :=
  RF.gtB v.vol_last (RF.mul (RF.fin MIN_VOLUME_FACTOR_RANGE) v.vol_ma20)

/-- strategy.py condition: close at or below the lower Bollinger band. -/
def touch_lower (v : StratVals) : Bool := RF.leB v.close_15 v.bb_lower

/-- strategy.py condition: RSI rebounding up through the oversold level. -/
def rsi_rebound (v : StratVals) : Bool :=
  RF.ltB v.rsi_prev (RF.fin RSI_OVERSOLD) && RF.leB (RF.fin RSI_OVERSOLD) v.rsi_last

/-- strategy.py condition: close at or above the upper Bollinger band. -/
def touch_upper (v : StratVals) : Bool := RF.geB v.close_15 v.bb_upper

/-- strategy.py condition: RSI rolling down through the overbought level. -/
def rsi_rollover (v : StratVals) : Bool :=
  RF.gtB v.rsi_prev (RF.fin RSI_OVERBOUGHT) && RF.geB (RF.fin RSI_OVERBOUGHT) v.rsi_last

/-- The four explanation parts accumulated by strategy.py before a decision
is appended (the 1h line, the 30m line, the 15m line, the conditions line). -/
def strat_parts (v : StratVals) : List String :=
  ["1h: EMA50=" ++ fmtFixed 2 v.ema50_1h ++ ", EMA100=" ++
     fmtFixed 2 v.ema100_1h ++ ", ADX=" ++ fmtFixed 1 v.adx_1h ++
     " -> big_trend=" ++ v.big_trend,
   "30m: EMA50=" ++ fmtFixed 2 v.ema50_30 ++ ", EMA100=" ++
     fmtFixed 2 v.ema100_30 ++ ", ADX=" ++ fmtFixed 1 v.adx_30 ++
     " -> mid_trend=" ++ v.mid_trend,
   "15m: close=" ++ fmtFixed 2 v.close_15 ++ ", EMA50=" ++
     fmtFixed 2 v.ema50_15 ++ ", EMA100=" ++ fmtFixed 2 v.ema100_15 ++
     ", RSI(prev=" ++ fmtFixed 1 v.rsi_prev ++ ", last=" ++
     fmtFixed 1 v.rsi_last ++ "), MACD hist(prev=" ++
     fmtFixed 4 v.macd_hist_prev ++ ", last=" ++ fmtFixed 4 v.macd_hist_last ++
     "), vol=" ++ fmtFixed 0 v.vol_last ++ ", vol_ma20=" ++ fmtFixed 0 v.vol_ma20,
   "Conditions: long_trend_ok=" ++ fmtPyBool (long_trend_ok v) ++
     ", rsi_cross_up=" ++ fmtPyBool (rsi_cross_up v) ++ ", macd_bull=" ++
     fmtPyBool (macd_bull v) ++ ", price_above_ema50=" ++
     fmtPyBool (price_above_ema50 v) ++ ", vol_ok_trend=" ++
     fmtPyBool (vol_ok_trend v) ++ " | short_trend_ok=" ++
     fmtPyBool (short_trend_ok v) ++ ", rsi_cross_down=" ++
     fmtPyBool (rsi_cross_down v) ++ ", macd_bear=" ++ fmtPyBool (macd_bear v) ++
     ", price_below_ema50=" ++ fmtPyBool (price_below_ema50 v) ++
     ", vol_ok_trend_short=" ++ fmtPyBool (vol_ok_trend_short v) ++
     ", range_vol_ok=" ++ fmtPyBool (range_vol_ok v)]

/-- strategy.py lines 214 to 225: the list of failed long conditions shown
in the UP-regime no-trade explanation. -/
def fail_reasons_up (v : StratVals) : List String :=
  (if !long_trend_ok v then ["1h/30m trend alignment not strong up."] else []) ++
  (if !rsi_cross_up v then ["RSI did not cross up through 45."] else []) ++
  (if !macd_bull v then ["MACD histogram did not cross from negative to positive."] else []) ++
  (if !price_above_ema50 v then ["Price not firmly above 15m EMA50."] else []) ++
  (if !vol_ok_trend v then ["Trend volume not high enough."] else [])

/-- strategy.py lines 226 to 236: the list of failed short conditions shown
in the DOWN-regime no-trade explanation. -/
def fail_reasons_down (v : StratVals) : List String :=
  (if !short_trend_ok v then ["1h/30m trend alignment not strong down."] else []) ++
  (if !rsi_cross_down v then ["RSI did not cross down through 55."] else []) ++
  (if !macd_bear v then ["MACD histogram did not cross from positive to negative."] else []) ++
  (if !price_below_ema50 v then ["Price not firmly below 15m EMA50."] else []) ++
  (if !vol_ok_trend_short v then ["Trend volume not high enough."] else [])

/-- strategy.py lines 135 to 246: the branch logic on the scalar values.
The source checks the volume baseline (a NaN baseline is truthy non-zero in
Python, so only an exact zero aborts here), builds the explanation parts,
then tries the two trend entries, the two range entries (the source's
nested range block only returns inside the inner conditionals, so the
fallthrough is equivalent to the flattened conjunctions used here), and
finally composes the no-trade explanation. -/
def decide_signal (v : StratVals) : Option Signal × String :=
  if RF.eqB v.vol_ma20 (RF.fin 0) then
    (none, "15m volume MA is zero/NaN, skipping trading.")
  else if long_trend_ok v && rsi_cross_up v && macd_bull v &&
      price_above_ema50 v && vol_ok_trend v then
    (some { side := "BUY",
            reason := "Trend long (1h+30m up, RSI/MACD cross up, EMA50 support)" },
     joinNL (strat_parts v ++
       ["Decision: OPEN LONG (trend-following) – all long conditions satisfied."]))
  else if short_trend_ok v && rsi_cross_down v && macd_bear v &&
      price_below_ema50 v && vol_ok_trend_short v then
    (some { side := "SELL",
            reason := "Trend short (1h+30m down, RSI/MACD cross down, EMA50 resistance)" },
     joinNL (strat_parts v ++
       ["Decision: OPEN SHORT (trend-following) – all short conditions satisfied."]))
  else if (v.big_trend == "RANGE") && RF.pyTruthy v.bb_lower &&
      RF.pyTruthy v.bb_upper && touch_lower v && rsi_rebound v && range_vol_ok v then
    (some { side := "BUY", reason := "Range long at lower Bollinger" },
     joinNL (strat_parts v ++
       ["Decision: OPEN LONG (range) – price at lower Bollinger, RSI rebounding from oversold, volume ok."]))
  else if (v.big_trend == "RANGE") && RF.pyTruthy v.bb_lower &&
      RF.pyTruthy v.bb_upper && touch_upper v && rsi_rollover v && range_vol_ok v then
    (some { side := "SELL", reason := "Range short at upper Bollinger" },
     joinNL (strat_parts v ++
       ["Decision: OPEN SHORT (range) – price at upper Bollinger, RSI rolling from overbought, volume ok."]))
  else if v.big_trend == "UP" then
    (none, joinNL (strat_parts v ++
      ["Decision: NO TRADE (trend mode) – " ++
        (if (fail_reasons_up v).isEmpty then "conditions ambiguous."
         else joinSemi (fail_reasons_up v))]))
  else if v.big_trend == "DOWN" then
    (none, joinNL (strat_parts v ++
      ["Decision: NO TRADE (trend mode) – " ++
        (if (fail_reasons_down v).isEmpty then "conditions ambiguous."
         else joinSemi (fail_reasons_down v))]))
  else
    (none, joinNL (strat_parts v ++
      ["Decision: NO TRADE (range mode) – range, but Bollinger/RSI conditions not clean enough yet."]))

/-- strategy.py evaluate_strategy: strip the still-forming trailing candle
from each timeframe, reject when any stripped frame has fewer than 60
candles, otherwise evaluate the scalar reads and the branch logic. -/
def evaluate_strategy (klines_15m klines_30m klines_1h : List Candle) :
    Option Signal × String :=
  if klines_15m.dropLast.length < 60 ∨ klines_30m.dropLast.length < 60 ∨
      klines_1h.dropLast.length < 60 then
    (none, "Not enough candles on one of the timeframes (need ~60 each).")
  else
    decide_signal (strat_vals klines_15m.dropLast klines_30m.dropLast
      klines_1h.dropLast)

-- ======================
--  String lemmas for the explanation trail
-- ======================

/-- Appending to a nonempty string keeps it nonempty. -/
theorem str_append_ne_empty (a b : String) (h : a ≠ "") : a ++ b ≠ "" := by
  cases a with
  | mk la =>
    cases b with
    | mk lb =>
      intro hc
      have hdata : la ++ lb = [] := congrArg String.data hc
      apply h
      show String.mk la = ""
      rw [(List.append_eq_nil.mp hdata).1]

/-- The newline join of a list with a nonempty head is nonempty. -/
theorem joinNL_ne_empty (x : String) (xs : List String) (h : x ≠ "") :
    joinNL (x :: xs) ≠ "" := by
  have haux : ∀ (ys : List String) (acc : String), acc ≠ "" →
      ys.foldl (fun a s => a ++ "\n" ++ s) acc ≠ "" := by
    intro ys
    induction ys with
    | nil =>
      intro acc hacc
      exact hacc
    | cons y ys ih =>
      intro acc hacc
      simp only [List.foldl]
      exact ih _ (str_append_ne_empty _ _ (str_append_ne_empty _ _ hacc))
  exact haux xs x h

-- ======================
--  Theorems: C5 (single signal, regime exclusivity, explanations)
-- ======================

/-- Branch-structure facts of the scalar decision logic: the explanation is
always nonempty; a signal produced while the 1h regime is RANGE is one of
the two range signals; a signal produced in any other regime is one of the
two trend signals. -/
theorem decide_signal_props (v : StratVals) :
    (decide_signal v).2 ≠ "" ∧
    (v.big_trend = "RANGE" → ∀ s, (decide_signal v).1 = some s →
      s.reason = "Range long at lower Bollinger" ∨
      s.reason = "Range short at upper Bollinger") ∧
    (v.big_trend ≠ "RANGE" → ∀ s, (decide_signal v).1 = some s →
      s.reason = "Trend long (1h+30m up, RSI/MACD cross up, EMA50 support)" ∨
      s.reason = "Trend short (1h+30m down, RSI/MACD cross down, EMA50 resistance)") := by
  unfold decide_signal
  split
  · refine ⟨by decide, ?_, ?_⟩
    · intro _ s hs
      simp at hs
    · intro _ s hs
      simp at hs
  · split
    · next h2 =>
      refine ⟨?_, ?_, ?_⟩
      · apply joinNL_ne_empty
        repeat' apply str_append_ne_empty
        decide
      · intro hbt s hs
        exfalso
        simp only [Bool.and_eq_true, beq_iff_eq, long_trend_ok] at h2
        have hup := h2.1.1.1.1.1
        rw [hbt] at hup
        exact absurd hup (by decide)
      · intro _ s hs
        have heq := Option.some_inj.mp hs
        subst heq
        exact Or.inl rfl
    · split
      · next h3 =>
        refine ⟨?_, ?_, ?_⟩
        · apply joinNL_ne_empty
          repeat' apply str_append_ne_empty
          decide
        · intro hbt s hs
          exfalso
          simp only [Bool.and_eq_true, beq_iff_eq, short_trend_ok] at h3
          have hdn := h3.1.1.1.1.1
          rw [hbt] at hdn
          exact absurd hdn (by decide)
        · intro _ s hs
          have heq := Option.some_inj.mp hs
          subst heq
          exact Or.inr rfl
      · split
        · next h4 =>
          refine ⟨?_, ?_, ?_⟩
          · apply joinNL_ne_empty
            repeat' apply str_append_ne_empty
            decide
          · intro _ s hs
            have heq := Option.some_inj.mp hs
            subst heq
            exact Or.inl rfl
          · intro hbt s hs
            exfalso
            simp only [Bool.and_eq_true, beq_iff_eq] at h4
            exact hbt h4.1.1.1.1.1
        · split
          · next h5 =>
            refine ⟨?_, ?_, ?_⟩
            · apply joinNL_ne_empty
              repeat' apply str_append_ne_empty
              decide
            · intro _ s hs
              have heq := Option.some_inj.mp hs
              subst heq
              exact Or.inr rfl
            · intro hbt s hs
              exfalso
              simp only [Bool.and_eq_true, beq_iff_eq] at h5
              exact hbt h5.1.1.1.1.1
          · split
            · refine ⟨?_, ?_, ?_⟩
              · apply joinNL_ne_empty
                repeat' apply str_append_ne_empty
                decide
              · intro _ s hs
                simp at hs
              · intro _ s hs
                simp at hs
            · split
              · refine ⟨?_, ?_, ?_⟩
                · apply joinNL_ne_empty
                  repeat' apply str_append_ne_empty
                  decide
                · intro _ s hs
                  simp at hs
                · intro _ s hs
                  simp at hs
              · refine ⟨?_, ?_, ?_⟩
                · apply joinNL_ne_empty
                  repeat' apply str_append_ne_empty
                  decide
                · intro _ s hs
                  simp at hs
                · intro _ s hs
                  simp at hs

/-- C5: evaluate_strategy emits at most one Signal per tick (its result type
carries at most one), the trend and range branches are mutually exclusive —
when the highest-timeframe regime is RANGE any emitted signal is one of the
two range signals, and when it is UP or DOWN any emitted signal is one of
the two trend signals — and every evaluation returns a nonempty textual
explanation. -/
theorem C5_single_signal_exclusive (kl15 kl30 kl1h : List Candle) :
    (evaluate_strategy kl15 kl30 kl1h).2 ≠ "" ∧
    ((strat_vals kl15.dropLast kl30.dropLast kl1h.dropLast).big_trend = "RANGE" →
      ∀ s, (evaluate_strategy kl15 kl30 kl1h).1 = some s →
        s.reason = "Range long at lower Bollinger" ∨
        s.reason = "Range short at upper Bollinger") ∧
    ((strat_vals kl15.dropLast kl30.dropLast kl1h.dropLast).big_trend ≠ "RANGE" →
      ∀ s, (evaluate_strategy kl15 kl30 kl1h).1 = some s →
        s.reason = "Trend long (1h+30m up, RSI/MACD cross up, EMA50 support)" ∨
        s.reason = "Trend short (1h+30m down, RSI/MACD cross down, EMA50 resistance)") := by
  unfold evaluate_strategy
  split
  · refine ⟨by decide, ?_, ?_⟩
    · intro _ s hs
      simp at hs
    · intro _ s hs
      simp at hs
  · exact decide_signal_props _

/-- C5 witness: on empty inputs the regime computes to RANGE (all indicator
reads are NaN, every comparison with NaN is False) and the theorem applies,
so any signal on such a tick could only be a range signal (here there is
none at all, making the implication concrete). -/
theorem C5_witness :
    (strat_vals ([] : List Candle) ([] : List Candle) ([] : List Candle)).big_trend
      = "RANGE" ∧
    (∀ s, (evaluate_strategy [] [] []).1 = some s →
      s.reason = "Range long at lower Bollinger" ∨
      s.reason = "Range short at upper Bollinger") :=
  ⟨by decide, (C5_single_signal_exclusive [] [] []).2.1 (by decide)⟩

-- ======================
--  Theorems: C4 and C10 (insufficient data handling)
-- ======================

/-- A fixed candle used to build concrete witness inputs. -/
def candleA : Candle :=
  { open_px := 1, high := 2, low := 1, close := 1, volume := 1 }

/-- C4: whenever any timeframe has fewer than 60 closed candles after the
still-forming trailing candle is discarded, evaluate_strategy returns no
signal together with a nonempty textual explanation — by construction it is
a total function, so no input raises an exception. -/
theorem C4_insufficient (kl15 kl30 kl1h : List Candle)
    (h : kl15.dropLast.length < 60 ∨ kl30.dropLast.length < 60 ∨
      kl1h.dropLast.length < 60) :
    (evaluate_strategy kl15 kl30 kl1h).1 = none ∧
    (evaluate_strategy kl15 kl30 kl1h).2 ≠ "" := by
  rw [evaluate_strategy, if_pos h]
  exact ⟨rfl, by decide⟩

/-- C4 witness: a 30m frame with only 29 closed candles is rejected even
though the other frames are long enough. -/
theorem C4_witness :
    (evaluate_strategy (List.replicate 61 candleA) (List.replicate 30 candleA)
      (List.replicate 61 candleA)).1 = none ∧
    (evaluate_strategy (List.replicate 61 candleA) (List.replicate 30 candleA)
      (List.replicate 61 candleA)).2 ≠ "" :=
  C4_insufficient _ _ _ (Or.inr (Or.inl (by decide)))

/-- C10: evaluate_strategy discards exactly one trailing element per
timeframe before the sufficiency check, so any timeframe with 60 or fewer
raw candles forces the early no-trade return with the fixed explanation
(and no indicator is computed on that path), while 61 or more raw candles
on every timeframe pass the check and reach the indicator evaluation: the
caller-visible minimum is 61 raw candles per timeframe. -/
theorem C10_min_61 (kl15 kl30 kl1h : List Candle) :
    ((kl15.length ≤ 60 ∨ kl30.length ≤ 60 ∨ kl1h.length ≤ 60) →
      evaluate_strategy kl15 kl30 kl1h =
        (none, "Not enough candles on one of the timeframes (need ~60 each).")) ∧
    (61 ≤ kl15.length → 61 ≤ kl30.length → 61 ≤ kl1h.length →
      evaluate_strategy kl15 kl30 kl1h =
        decide_signal (strat_vals kl15.dropLast kl30.dropLast kl1h.dropLast)) := by
  constructor
  · intro h
    have hc : kl15.dropLast.length < 60 ∨ kl30.dropLast.length < 60 ∨
        kl1h.dropLast.length < 60 := by
      rcases h with h | h | h
      · left
        rw [List.length_dropLast]
        omega
      · right
        left
        rw [List.length_dropLast]
        omega
      · right
        right
        rw [List.length_dropLast]
        omega
    rw [evaluate_strategy, if_pos hc]
  · intro h1 h2 h3
    have hc : ¬ (kl15.dropLast.length < 60 ∨ kl30.dropLast.length < 60 ∨
        kl1h.dropLast.length < 60) := by
      push_neg
      refine ⟨?_, ?_, ?_⟩ <;> rw [List.length_dropLast] <;> omega
    rw [evaluate_strategy, if_neg hc]

/-- C10 witness: exactly 60 raw candles per timeframe (59 closed after the
trailing discard) still produce the early no-trade return. -/
theorem C10_witness :
    evaluate_strategy (List.replicate 60 candleA) (List.replicate 60 candleA)
      (List.replicate 60 candleA) =
      (none, "Not enough candles on one of the timeframes (need ~60 each).") :=
  (C10_min_61 _ _ _).1 (Or.inl (by decide))

-- ======================
--  bot.py decision loop (one tick)
-- ======================

/-- bot.py get_open_position_info result: the open position, if any. -/
structure PositionInfo where
  qty : ℚ
  entry_price : ℚ
  side : String
deriving DecidableEq, Repr

/-- What the decision section of one bot.py main-loop pass did: whether the
ATR stop/target exit logic ran, whether evaluate_strategy (entry
evaluation) ran, and the market orders submitted as (side, qty,
reduce_only) triples. -/
structure TickResult where
  exit_evaluated : Bool
  entry_evaluated : Bool
  orders : List (String × ℚ × Bool)
deriving DecidableEq, Repr

/-- bot.py compute_atr_from_15m: None when fewer than ATR_PERIOD + 2 15m
klines are available, otherwise the last ATR value. -/
def compute_atr_from_15m (klines_15m : List Candle) : Option RF :=
  if klines_15m.length < ATR_PERIOD + 2 then none
  else some ((atr klines_15m ATR_PERIOD).getLastD RF.nan)

/-- bot.py main loop, lines 162 to 296: the per-tick decision dispatch.  The
source guard is "if pos_info and atr_15 is not None": the ATR stop/target
management branch runs only when a position exists AND the ATR is
available; otherwise control falls into the branch commented "Flat:
evaluate new entry", which calls evaluate_strategy and may submit an entry
order when a signal fires, the risk gate allows it, and the computed
quantity is positive. -/
def tick_decide (pos_info : Option PositionInfo) (kl_15 kl_30 kl_1h : List Candle)
    (mark_price : ℚ) (allowed : Bool) (wallet_balance : ℚ) : TickResult :=
  let atr_15 := compute_atr_from_15m kl_15
  match pos_info, atr_15 with
  | some p, some a =>
      let sl := if p.side == "BUY"
        then RF.sub (RF.fin p.entry_price) (RF.mul (RF.fin ATR_SL_MULTIPLIER) a)
        else RF.add (RF.fin p.entry_price) (RF.mul (RF.fin ATR_SL_MULTIPLIER) a)
      let tp := if p.side == "BUY"
        then RF.add (RF.fin p.entry_price) (RF.mul (RF.fin ATR_TP_MULTIPLIER) a)
        else RF.sub (RF.fin p.entry_price) (RF.mul (RF.fin ATR_TP_MULTIPLIER) a)
      let orders :=
        if (p.side == "BUY") && RF.leB (RF.fin mark_price) sl then
          [("SELL", p.qty, true)]
        else if (p.side == "BUY") && RF.geB (RF.fin mark_price) tp then
          [("SELL", p.qty, true)]
        else if (p.side == "SELL") && RF.geB (RF.fin mark_price) sl then
          [("BUY", p.qty, true)]
        else if (p.side == "SELL") && RF.leB (RF.fin mark_price) tp then
          [("BUY", p.qty, true)]
        else []
      { exit_evaluated := true, entry_evaluated := false, orders := orders }
  | _, _ =>
      let se := evaluate_strategy kl_15 kl_30 kl_1h
      let orders := match se.1 with
        | some s =>
            if allowed then
              if 0 < compute_position_size wallet_balance mark_price then
                [(s.side, compute_position_size wallet_balance mark_price, false)]
              else []
            else []
        | none => []
      { exit_evaluated := false, entry_evaluated := true, orders := orders }

-- ======================
--  Theorems: C2 (exit-before-entry ordering)
-- ======================

/-- The concrete open position used for the C2 failing input. -/
def posC2 : PositionInfo := { qty := 1, entry_price := 100, side := "BUY" }

/-- C2 evaluation at the failing input: with an open position but too few
15m klines for the ATR (here none at all), the tick does NOT take the
position-management branch and instead performs entry evaluation — the
opposite of the claimed "never considers a new entry while a position is
open".  When the ATR is available the managed branch does run with no entry
evaluation, confirming that the failure is exactly the ATR-unavailable
case. -/
theorem C2_code_eval :
    (some posC2).isSome = true ∧
    (tick_decide (some posC2) [] [] [] 2000 true 1000).entry_evaluated = true ∧
    (tick_decide (some posC2) [] [] [] 2000 true 1000).exit_evaluated = false ∧
    (tick_decide (some posC2) (List.replicate 16 candleA) [] [] 2000 true
      1000).exit_evaluated = true ∧
    (tick_decide (some posC2) (List.replicate 16 candleA) [] [] 2000 true
      1000).entry_evaluated = false := by
  refine ⟨rfl, rfl, rfl, rfl, rfl⟩
